import Mathlib

/-!
# Verification of the PharmGKB evidence-generation core

Shallow embedding of the two source modules `evidence_generation.py` and
`variant_annotations.py` of the opentargets-pharmgkb repository, together with
models of the helpers they import from `variant_coordinates.py` and
`pandas_utils.py` (whose sources are not part of the snapshot; those models are
written from the specification and are marked `Modelled from the spec:`).

Python strings are embedded as Lean `String`, Python `None`-able values as
`Option`, Python lists as `List`, Python dicts as association lists, and
Python code that can raise as `Except Unit`.
-/

set_option maxRecDepth 10000

namespace PGKB

/-- Python `str.split(sep)` on a single-character separator, at the character-list
level.  Python's split never drops text: `"".split(sep) == ['']` and
separators at the ends yield empty fields. -/
def splitCharList (sep : Char) : List Char → List (List Char)
  | [] => [[]]
  | c :: cs =>
    match splitCharList sep cs with
    | [] => [[]]
    | g :: gs => if c = sep then [] :: g :: gs else (c :: g) :: gs

/-- Python `str.split(sep)` for a one-character separator. -/
def pySplit (s : String) (sep : Char) : List String :=
  (splitCharList sep s.data).map String.mk

/-- Semantics of `re.match('([^/]+)/([^/]+)', s)`: an anchored-at-start match of a greedy
run of non-slash characters, a slash, and a second greedy run of non-slash
characters; the end of the string is not anchored, so trailing text after the
second run is simply not part of the match. -/
def reMatchTwoTokens (l : List Char) : Option (List Char × List Char) :=
  match l.takeWhile (· ≠ '/'), l.dropWhile (· ≠ '/') with
  | [], _ => none
  | t1, '/' :: rest =>
    match rest.takeWhile (· ≠ '/') with
    | [] => none
    | t2 => some (t1, t2)
  | _, _ => none

/-- The two capture groups of `re.match('([^/]+)/([^/]+)', g)`, as strings. -/
def twoTokenMatch (g : String) : Option (String × String) :=
  (reMatchTwoTokens g.data).map fun p => (String.mk p.1, String.mk p.2)

/-- Function `simple_parse_genotype` from `variant_annotations.py`: length-2 strings
without `*` are split into their two characters (SNP diplotype shorthand);
then the `<token>/<token>` regex match, when it succeeds, overrides with the
two captured groups; otherwise the accumulated value stands. -/
def simple_parse_genotype (genotype_string : String) : List String :=
  let alleles := [genotype_string]
  -- SNPs: len(genotype_string) == 2 and '*' not in genotype_string
  let alleles :=
    match genotype_string.data with
    | [c0, c1] =>
      if '*' ∈ [c0, c1] then alleles else [String.mk [c0], String.mk [c1]]
    | _ => alleles
  -- others (indels, repeats, star alleles): re.match('([^/]+)/([^/]+)', ...)
  match reMatchTwoTokens genotype_string.data with
  | some (t1, t2) => [String.mk t1, String.mk t2]
  | none => alleles

/-- Python `sep.join(parts)` at the character-list level. -/
def joinCharList (sep : List Char) : List (List Char) → List Char
  | [] => []
  | [a] => a
  | a :: b :: rest => a ++ sep ++ joinCharList sep (b :: rest)

/-- Python `sep.join(parts)`. -/
def pyJoin (sep : String) (parts : List String) : String :=
  String.mk (joinCharList sep.data (parts.map String.data))

/-- Function `genotype_id` from `evidence_generation.py`: the formatted identifier when
`chrom`, `pos` and `ref` are all truthy (non-empty) strings, `None` otherwise.
The caller passes the sorted, comma-joined allele list. -/
def genotype_id (chrom pos ref : String) (parsed_genotype : List String) : Option String :=
  if chrom ≠ "" ∧ pos ≠ "" ∧ ref ≠ "" then
    some (chrom ++ "_" ++ pos ++ "_" ++ ref ++ "_" ++ pyJoin "," parsed_genotype)
  else none

/-- Function `genotype_id_to_vep_ids` from `evidence_generation.py`: split the
identifier on `_` (the `assert` on the field count is modelled as `none`),
split the genotype field on `,`, and emit one VEP query per alt allele that
differs from the reference. -/
def genotype_id_to_vep_ids (coord_id : String) : Option (List String) :=
  match pySplit coord_id '_' with
  | [chrom, pos, ref, genotype] =>
    some (((pySplit genotype ',').filter (fun alt => alt ≠ ref)).map
      (fun alt => chrom ++ " " ++ pos ++ " . " ++ ref ++ " " ++ alt))
  | _ => none

/-- Python truthiness of a nullable string: `None` and `''` are falsy. -/
def pyTruthy : Option String → Bool
  | none => false
  | some s => !(s == "")

/-- First-occurrence deduplication, as pandas `drop_duplicates` (keep the
first row for each key). -/
def pdDropDupAux (seen : List String) : List String → List String
  | [] => []
  | x :: xs => if x ∈ seen then pdDropDupAux seen xs else x :: pdDropDupAux (x :: seen) xs

/-- First occurrences of each distinct string, in order. -/
def pdDropDup (l : List String) : List String := pdDropDupAux [] l

/-- The quadruple returned by the reference sequence accessor for one rsID:
chromosome, position, reference base and the allele `token → normalized allele`
mapping (a Python dict, embedded as an association list). -/
structure SiteInfo where
  chrom : Option String
  pos : Option String
  ref : Option String
  alleleMapping : List (String × String)
deriving DecidableEq

/-- Modelled from the spec: locus parsing inside `Fasta.get_chr_pos_ref`
(`variant_coordinates.py`, not in the snapshot).  §4.2 step 1: parse
chromosome and 1-based position from the `chrom:pos` locus descriptor,
failing soft (`none`) on a missing locus, a missing chromosome or an
unparseable position. -/
def parseLocation (loc : Option String) : Option (String × String) :=
  match loc with
  | none => none
  | some s =>
    match pySplit s ':' with
    | [chrom, pos] =>
      if chrom ≠ "" ∧ pos ≠ "" ∧ pos.data.all (fun c => c.isDigit) then some (chrom, pos)
      else none
    | _ => none

/-- Modelled from the spec: `Fasta.get_chr_pos_ref` of `variant_coordinates.py`
is not in the snapshot.  §4.2: parse the locus (step 1, fail soft to an
all-null site); fetch the reference base at that position from the sequence
store, abstracted here as `seqStore` (step 2, fail soft when the position is
out of range); collect the distinct allele tokens over every genotype observed
for the rsID (step 3); map each length-1 token equal to the reference base to
the reference base and every other length-1 token to itself (step 4); tokens
longer than one character cannot be placed on the reference frame and are left
unmapped (step 5) — and since §3's Variant Site invariant keys the mapping by
every distinct observed token, a site observing such a token carries no
mapping at all. -/
def get_chr_pos_ref (seqStore : String → String → Option String)
    (loc : Option String) (all_genotypes : List (List String)) : SiteInfo :=
  match parseLocation loc with
  | none => ⟨none, none, none, []⟩
  | some (chrom, pos) =>
    match seqStore chrom pos with
    | none => ⟨none, none, none, []⟩
    | some ref =>
      let tokens := pdDropDup all_genotypes.flatten
      if tokens.all (fun t => t.length = 1) then
        ⟨some chrom, some pos, some ref,
          tokens.map (fun t => (t, if t = ref then ref else t))⟩
      else ⟨some chrom, some pos, some ref, []⟩

/-- One row of the dataframe entering `get_genotype_ids`: the columns
`Variant/Haplotypes` (rsID), `Location` and `Genotype/Allele` it reads. -/
structure ClinVariantRow where
  rsid : String
  location : Option String
  genotypeText : String
deriving DecidableEq

/-- Modelled from the spec: `parse_genotype` of `variant_coordinates.py` is
not in the snapshot; §4.1 specifies that the coordinate-resolution grammar and
the matching grammar (`simple_parse_genotype`, above, from the source) share
identical logic. -/
def parse_genotype (genotype_string : String) : List String :=
  simple_parse_genotype genotype_string

/-- The `all_genotypes` column: the list of parsed genotypes of every record
sharing the row's rsID (the pandas groupby-aggregate in `get_genotype_ids`). -/
def all_genotypes_for (records : List ClinVariantRow) (rsid : String) : List (List String) :=
  (records.filter (fun r => r.rsid == rsid)).map (fun r => parse_genotype r.genotypeText)

/-- The `rs_to_coords` cache of `get_genotype_ids`: it is filled by iterating
the rows deduplicated on rsID (pandas keeps the first row), so the location
passed to the accessor is the first record's. -/
def rsToCoords (seqStore : String → String → Option String)
    (records : List ClinVariantRow) (rsid : String) : SiteInfo :=
  match records.find? (fun r => r.rsid == rsid) with
  | some r => get_chr_pos_ref seqStore r.location (all_genotypes_for records rsid)
  | none => ⟨none, none, none, []⟩

/-- Python `alleles_dict[a]`: `none` models the `KeyError` raised on a
missing key. -/
def pyDictGet (d : List (String × String)) (k : String) : Option String :=
  (d.find? (fun p => p.1 == k)).map (fun p => p.2)

/-- The comprehension `[alleles_dict[a] for a in parsed_genotype]`: the whole comprehension
raises (`none`) as soon as any key is missing. -/
def mapLookup (d : List (String × String)) : List String → Option (List String)
  | [] => some []
  | t :: ts =>
    match pyDictGet d t, mapLookup d ts with
    | some v, some vs => some (v :: vs)
    | _, _ => none

/-- Python's `<=` on strings: lexicographic by code point, compared at the
character-list level (where the order is kernel-computable). -/
def pyLe (a b : String) : Prop := a.data ≤ b.data

instance : DecidableRel pyLe :=
  fun a b => (inferInstance : Decidable (a.data ≤ b.data))

instance : IsTotal String pyLe := ⟨fun a b => le_total a.data b.data⟩

instance : IsTrans String pyLe := ⟨fun _ _ _ h1 h2 => le_trans h1 h2⟩

instance : IsAntisymm String pyLe := ⟨fun _ _ h1 h2 => String.ext (le_antisymm h1 h2)⟩

/-- Python `sorted` on a list of strings. -/
def pySorted (l : List String) : List String := l.insertionSort pyLe

/-- The per-record body of the second loop of `get_genotype_ids`
(`evidence_generation.py` lines 147-153): when chromosome, position, reference
and the allele mapping are all truthy, look every parsed token up in the
mapping (a missing key raises `KeyError`, modelled as `.error ()`), sort, and
format with `genotype_id`; otherwise the record's identifier is `None`. -/
def recordGenotypeId (site : SiteInfo) (parsed : List String) : Except Unit (Option String) :=
  if pyTruthy site.chrom && pyTruthy site.pos && pyTruthy site.ref
      && !site.alleleMapping.isEmpty then
    match mapLookup site.alleleMapping parsed with
    | some vals =>
      .ok (genotype_id (site.chrom.getD "") (site.pos.getD "") (site.ref.getD "")
        (pySorted vals))
    | none => .error ()
  else .ok none

/-- A Python loop whose body may raise, aborting the whole loop at the first
error. -/
def mapExcept (f : α → Except Unit β) : List α → Except Unit (List β)
  | [] => .ok []
  | x :: xs =>
    match f x with
    | .error e => .error e
    | .ok y =>
      match mapExcept f xs with
      | .error e => .error e
      | .ok ys => .ok (y :: ys)

/-- Function `get_genotype_ids` from `evidence_generation.py`: annotate every record
with its canonical genotype identifier (or `None`), resolving each rsID once
through the accessor. -/
def get_genotype_ids (seqStore : String → String → Option String)
    (records : List ClinVariantRow) : Except Unit (List (ClinVariantRow × Option String)) :=
  mapExcept (fun r =>
    match recordGenotypeId (rsToCoords seqStore records r.rsid) (parse_genotype r.genotypeText) with
    | .ok v => .ok (r, v)
    | .error e => .error e) records

/-- The `rs_with_more_than_2_alleles` counter of `get_genotype_ids`: the first
loop runs once per distinct rsID (rows deduplicated on `Variant/Haplotypes`)
and increments when that rsID's allele mapping has more than two members. -/
def rs_with_more_than_2_alleles (seqStore : String → String → Option String)
    (records : List ClinVariantRow) : Nat :=
  (pdDropDup (records.map (fun r => r.rsid))).countP
    (fun rsid => decide (2 < (rsToCoords seqStore records rsid).alleleMapping.length))

/-- Semantics of `zip_longest(*([iter(iterable)]*n), fillvalue=None)`: the elements in
order, grouped into tuples of exactly `n` entries, the last tuple padded with
`None`. -/
def pyZipLongestGroups (l : List α) (n : Nat) : List (List (Option α)) :=
  (List.range ((l.length + n - 1) / n)).map fun i =>
    ((l.drop (i * n)).take n).map some
      ++ List.replicate (n - ((l.drop (i * n)).take n).length) none

/-- Function `grouper` from `evidence_generation.py`.  The comprehension
`[x for x in zip_longest(*args, fillvalue=None) if x is not None]` filters
each *tuple* `x` against `None`; a tuple is never `None`, so the filter keeps
every tuple and the `None` fill values remain inside the final tuple. -/
def grouper (l : List α) (n : Nat) : List (List (Option α)) :=
  (pyZipLongestGroups l n).filter (fun _x => true)

/-- A reference sequence store whose every base is `A`, for concrete runs. -/
def seqStoreA : String → String → Option String := fun _ _ => some "A"

def rowAG : ClinVariantRow := ⟨"rs1", some "1:100", "A/G"⟩

def rowGA : ClinVariantRow := ⟨"rs1", some "1:100", "G/A"⟩

def rowSnp : ClinVariantRow := ⟨"rs1", some "1:100", "AG"⟩

def rowStar : ClinVariantRow := ⟨"rs1", some "1:100", "*1/*2"⟩

def rowCT : ClinVariantRow := ⟨"rs1", some "1:100", "C/T"⟩

def rowRs2 : ClinVariantRow := ⟨"rs2", some "2:200", "T/T"⟩

/-- One variant annotation row entering
`associate_annotations_with_alleles`: its `Variant Annotation ID` (never null
in the source table) and its `Alleles` text.  The remaining payload columns
(PMID, Sentence, ...) are carried along unchanged by the function and play no
role in the matching, so they are not modelled. -/
structure AnnRow where
  vaid : String
  alleles : String
deriving DecidableEq

/-- One clinical-annotation allele row: `Clinical Annotation ID` and
`Genotype/Allele`. -/
structure ClinAlleleRow where
  caid : String
  genotype : String
deriving DecidableEq

/-- A row of `split_ann_df` after the two explodes. -/
structure SplitAnnRow where
  vaid : String
  alleles : String
  split1 : String
  split2 : String
deriving DecidableEq

/-- Modelled from the spec: `split_and_explode_column`
(`pandas_utils.py`, not in the snapshot) splits the named column on the
separator and repeats the row once per token (§4.5 step 2).  Applied twice:
first `Alleles` on `+` into `split_alleles_1`, then that on `/` into
`split_alleles_2`. -/
def splitAnnRows (anns : List AnnRow) : List SplitAnnRow :=
  anns.flatMap fun a =>
    (pySplit a.alleles '+').flatMap fun s1 =>
      (pySplit s1 '/').map fun s2 => ⟨a.vaid, a.alleles, s1, s2⟩

/-- A row of `split_clin_df`: the clinical allele row with one of its parsed
genotype tokens (the `explode` over `parsed_genotype`). -/
structure SplitClinRow where
  caid : String
  genotype : String
  parsed : String
deriving DecidableEq

def splitClinRows (clins : List ClinAlleleRow) : List SplitClinRow :=
  clins.flatMap fun c =>
    (simple_parse_genotype c.genotype).map fun t => ⟨c.caid, c.genotype, t⟩

/-- A row of the outer merge of `split_clin_df` with `split_ann_df`: every
column nullable, as pandas fills the side that did not match with NaN. -/
structure MergedRow where
  caid : Option String
  genotype : Option String
  parsed : Option String
  vaid : Option String
  alleles : Option String
  split1 : Option String
  split2 : Option String
deriving DecidableEq

def mergedBoth (c : SplitClinRow) (a : SplitAnnRow) : MergedRow :=
  ⟨some c.caid, some c.genotype, some c.parsed,
    some a.vaid, some a.alleles, some a.split1, some a.split2⟩

def mergedLeft (c : SplitClinRow) : MergedRow :=
  ⟨some c.caid, some c.genotype, some c.parsed, none, none, none, none⟩

def mergedRight (a : SplitAnnRow) : MergedRow :=
  ⟨none, none, none, some a.vaid, some a.alleles, some a.split1, some a.split2⟩

/-- Pandas `pd.merge(split_clin_df, split_ann_df, how='outer', ...)` on the given
key test: every left row with its matches (or NaN-filled if none), then the
unmatched right rows. -/
def outerMerge (ls : List SplitClinRow) (rs : List SplitAnnRow)
    (key : SplitClinRow → SplitAnnRow → Bool) : List MergedRow :=
  (ls.flatMap fun c =>
    match rs.filter (key c) with
    | [] => [mergedLeft c]
    | m :: ms => (m :: ms).map (mergedBoth c))
  ++ (rs.filter (fun a => !ls.any (fun c => key c a))).map mergedRight

def dropDupGenotypeVaidAux (seen : List (Option String × Option String)) :
    List MergedRow → List MergedRow
  | [] => []
  | x :: xs =>
    if (x.genotype, x.vaid) ∈ seen then dropDupGenotypeVaidAux seen xs
    else x :: dropDupGenotypeVaidAux ((x.genotype, x.vaid) :: seen) xs

/-- Pandas `drop_duplicates(subset=[GENOTYPE_ALLELE_COL_NAME, VAR_ID_COL_NAME])`:
keep the first row for each (genotype text, Variant Annotation ID) pair. -/
def dropDupGenotypeVaid (l : List MergedRow) : List MergedRow :=
  dropDupGenotypeVaidAux [] l

/-- The `merged_df` of `associate_annotations_with_alleles`: outer merge on
genotype text = `split_alleles_1` (pass a). -/
def assocMerged1 (anns : List AnnRow) (clins : List ClinAlleleRow) : List MergedRow :=
  outerMerge (splitClinRows clins) (splitAnnRows anns) (fun c a => c.genotype == a.split1)

/-- The `merged_df_2` of `associate_annotations_with_alleles`: outer merge on
parsed allele token = `split_alleles_2` (pass b). -/
def assocMerged2 (anns : List AnnRow) (clins : List ClinAlleleRow) : List MergedRow :=
  outerMerge (splitClinRows clins) (splitAnnRows anns) (fun c a => c.parsed == a.split2)

/-- The `rows_first_match` frame for the clinical row `c`: rows of pass (a) carrying
`c`'s genotype text and parsed token with a non-null Variant Annotation ID. -/
def assocRowsFirst (anns : List AnnRow) (clins : List ClinAlleleRow) (c : SplitClinRow) :
    List MergedRow :=
  (assocMerged1 anns clins).filter fun m =>
    m.genotype == some c.genotype && m.parsed == some c.parsed && m.vaid != none

/-- The `rows_second_match` frame for the clinical row `c`, over pass (b). -/
def assocRowsSecond (anns : List AnnRow) (clins : List ClinAlleleRow) (c : SplitClinRow) :
    List MergedRow :=
  (assocMerged2 anns clins).filter fun m =>
    m.genotype == some c.genotype && m.parsed == some c.parsed && m.vaid != none

/-- One iteration of the loop over `split_clin_df.itertuples`: the list of
dataframes appended to `all_results` for the row `c` — the two per-pass
matches with a non-null Variant Annotation ID, or, if both are empty, the
NaN-filled rows for `c`. -/
def assocIter (anns : List AnnRow) (clins : List ClinAlleleRow) (c : SplitClinRow) :
    List (List MergedRow) :=
  if (assocRowsFirst anns clins c).isEmpty && (assocRowsSecond anns clins c).isEmpty then
    [(assocMerged1 anns clins).filter fun m =>
      m.genotype == some c.genotype && m.parsed == some c.parsed]
  else [assocRowsFirst anns clins c, assocRowsSecond anns clins c]

/-- The `all_results` list of dataframes after the loop. -/
def assocAllResults (anns : List AnnRow) (clins : List ClinAlleleRow) :
    List (List MergedRow) :=
  (splitClinRows clins).flatMap (assocIter anns clins)

/-- Function `associate_annotations_with_alleles` from `variant_annotations.py`: split
the annotations on `+` then `/`, explode the clinical alleles over their
parsed tokens, outer-merge twice (genotype text against `split_alleles_1` and
parsed token against `split_alleles_2`), then per clinical row keep the
non-null-matching rows of both passes, or the NaN-filled rows if neither pass
matched; finally `pd.concat` the collected frames (raising, modelled as
`.error ()`, when the list is empty) and drop duplicates on
(genotype, Variant Annotation ID). -/
def associate_annotations_with_alleles (anns : List AnnRow) (clins : List ClinAlleleRow) :
    Except Unit (List MergedRow) :=
  if (assocAllResults anns clins).isEmpty then .error ()
  else .ok (dropDupGenotypeVaid (assocAllResults anns clins).flatten)

theorem reMatchTwoTokens_eq_none_of_length_lt (l : List Char) (h : l.length < 3) :
    reMatchTwoTokens l = none := by
  rcases l with _ | ⟨a, _ | ⟨b, _ | ⟨c, tl⟩⟩⟩
  · rfl
  · by_cases ha : a = '/' <;>
      simp [reMatchTwoTokens, List.takeWhile, List.dropWhile, ha]
  · by_cases ha : a = '/' <;> by_cases hb : b = '/' <;>
      simp [reMatchTwoTokens, List.takeWhile, List.dropWhile, ha, hb]
  · simp only [List.length_cons] at h; omega

theorem parse_eq_of_match_some (g : String) (a b : String)
    (h : twoTokenMatch g = some (a, b)) : simple_parse_genotype g = [a, b] := by
  unfold twoTokenMatch at h
  rcases hm : reMatchTwoTokens g.data with _ | ⟨t1, t2⟩
  · rw [hm] at h; simp at h
  · rw [hm] at h
    simp only [Option.map_some', Option.some.injEq, Prod.mk.injEq] at h
    obtain ⟨ha, hb⟩ := h
    unfold simple_parse_genotype
    rw [hm, ← ha, ← hb]

theorem parse_eq_of_match_none (g : String)
    (hsnp : ¬(g.data.length = 2 ∧ '*' ∉ g.data))
    (h : twoTokenMatch g = none) : simple_parse_genotype g = [g] := by
  unfold twoTokenMatch at h
  rcases hm : reMatchTwoTokens g.data with _ | ⟨t1, t2⟩
  · unfold simple_parse_genotype
    rw [hm]
    rcases hd : g.data with _ | ⟨c0, _ | ⟨c1, _ | ⟨c2, tl⟩⟩⟩ <;> simp only
    rw [if_pos]
    by_contra hstar
    exact hsnp ⟨by rw [hd]; rfl, by rw [hd]; simpa using hstar⟩
  · rw [hm] at h; simp at h

theorem parse_eq_snp (g : String) (c0 c1 : Char) (hd : g.data = [c0, c1])
    (hstar : '*' ∉ g.data) : simple_parse_genotype g = [String.mk [c0], String.mk [c1]] := by
  have hm : reMatchTwoTokens g.data = none :=
    reMatchTwoTokens_eq_none_of_length_lt _ (by rw [hd]; simp)
  unfold simple_parse_genotype
  rw [hm, hd]
  simp only
  rw [if_neg]
  rw [hd] at hstar
  simpa using hstar

/-- C6: for every input string, `simple_parse_genotype` returns the two single
characters as separate allele tokens when the string has length exactly 2 and
contains no `*`; otherwise, when the string matches `<token>/<token>` (first
match only), the two slash-separated tokens; otherwise the whole string as a
single allele token. -/
theorem claim_C6_parser_grammar (g : String) :
    (g.data.length = 2 ∧ '*' ∉ g.data →
      simple_parse_genotype g = g.data.map fun c => String.mk [c])
    ∧ (¬(g.data.length = 2 ∧ '*' ∉ g.data) →
      (∀ t1 t2, twoTokenMatch g = some (t1, t2) → simple_parse_genotype g = [t1, t2])
      ∧ (twoTokenMatch g = none → simple_parse_genotype g = [g])) := by
  constructor
  · rintro ⟨hlen, hstar⟩
    rcases hd : g.data with _ | ⟨c0, tl0⟩
    · rw [hd] at hlen; simp at hlen
    · rcases tl0 with _ | ⟨c1, tl1⟩
      · rw [hd] at hlen; simp at hlen
      · rcases tl1 with _ | ⟨c2, tl2⟩
        · rw [parse_eq_snp g c0 c1 hd hstar]; rfl
        · rw [hd] at hlen
          simp only [List.length_cons] at hlen
          omega
  · intro hsnp
    exact ⟨fun t1 t2 ht => parse_eq_of_match_some g t1 t2 ht,
           fun hn => parse_eq_of_match_none g hsnp hn⟩

/-- C6 witness: `"A/G"` is not SNP shorthand (length 3) and matches the
`<token>/<token>` grammar, so it parses to the two tokens. -/
theorem claim_C6_parser_grammar_witness : simple_parse_genotype "A/G" = ["A", "G"] :=
  ((claim_C6_parser_grammar "A/G").2 (by decide)).1 "A" "G" (by decide)

/-- C7 counterexample: on the input `"A/B/C"` the parser returns `["A", "B"]`:
the trailing `"/C"` is silently dropped even though the result is not the whole
input returned as a single token, contradicting the claim that unparseable
text is never dropped. -/
theorem claim_C7_counterexample :
    simple_parse_genotype "A/B/C" = ["A", "B"]
    ∧ "A" ++ "/" ++ "B" ≠ "A/B/C"
    ∧ "A" ++ "B" ≠ "A/B/C"
    ∧ ["A", "B"] ≠ ["A/B/C"] := by decide

/-- C7 amended: the parser never raises and always returns a token list of
length 1 or 2; input that is neither SNP shorthand nor contains a leading
`<token>/<token>` pattern is returned whole as a single-element token list;
but when the pattern matches only a proper prefix of the input, the text after
the second token is dropped (so unmatched text is not always preserved). -/
theorem claim_C7_amended (g : String) :
    ((simple_parse_genotype g).length = 1 ∨ (simple_parse_genotype g).length = 2)
    ∧ (¬(g.data.length = 2 ∧ '*' ∉ g.data) → twoTokenMatch g = none →
      simple_parse_genotype g = [g]) := by
  constructor
  · rcases hm : reMatchTwoTokens g.data with _ | ⟨t1, t2⟩
    · unfold simple_parse_genotype
      rw [hm]
      rcases g.data with _ | ⟨c0, _ | ⟨c1, _ | _⟩⟩ <;> simp only <;>
        first
          | (left; rfl)
          | (split
             · left; rfl
             · right; rfl)
    · rw [parse_eq_of_match_some g (String.mk t1) (String.mk t2)
        (by unfold twoTokenMatch; rw [hm]; rfl)]
      right; rfl
  · exact fun hsnp hn => parse_eq_of_match_none g hsnp hn

/-- C7 amended witness: `"ABC"` (length 3, no slash) is returned whole as a
single token. -/
theorem claim_C7_amended_witness :
    ((simple_parse_genotype "ABC").length = 1 ∨ (simple_parse_genotype "ABC").length = 2)
    ∧ simple_parse_genotype "ABC" = ["ABC"] :=
  ⟨(claim_C7_amended "ABC").1, (claim_C7_amended "ABC").2 (by decide) (by decide)⟩

theorem splitCharList_of_not_mem (sep : Char) (l : List Char) (h : sep ∉ l) :
    splitCharList sep l = [l] := by
  induction l with
  | nil => rfl
  | cons c cs ih =>
    have hc : c ≠ sep := fun hc => h (hc ▸ List.mem_cons_self c cs)
    have hcs : sep ∉ cs := fun hm => h (List.mem_cons_of_mem c hm)
    unfold splitCharList
    rw [ih hcs]
    simp [hc]

theorem splitCharList_cons (sep c : Char) (cs : List Char) :
    splitCharList sep (c :: cs) =
      match splitCharList sep cs with
      | [] => [[]]
      | g :: gs => if c = sep then [] :: g :: gs else (c :: g) :: gs := rfl

theorem splitCharList_ne_nil (sep : Char) (l : List Char) : splitCharList sep l ≠ [] := by
  induction l with
  | nil => simp [splitCharList]
  | cons c cs ih =>
    rw [splitCharList_cons]
    rcases h : splitCharList sep cs with _ | ⟨g, gs⟩
    · simp
    · by_cases hc : c = sep <;> simp [hc]

theorem splitCharList_append_sep (sep : Char) (a rest : List Char) (h : sep ∉ a) :
    splitCharList sep (a ++ sep :: rest) = a :: splitCharList sep rest := by
  induction a with
  | nil =>
    rcases hr : splitCharList sep rest with _ | ⟨g, gs⟩
    · exact absurd hr (splitCharList_ne_nil sep rest)
    · simp only [List.nil_append]
      rw [splitCharList_cons, hr]
      simp
  | cons c cs ih =>
    have hc : c ≠ sep := fun hcc => h (hcc ▸ List.mem_cons_self c cs)
    have hcs : sep ∉ cs := fun hm => h (List.mem_cons_of_mem c hm)
    simp only [List.cons_append]
    rw [splitCharList_cons, ih hcs]
    simp [hc]

theorem splitCharList_join (sep : Char) (parts : List (List Char))
    (hne : parts ≠ []) (h : ∀ p ∈ parts, sep ∉ p) :
    splitCharList sep (joinCharList [sep] parts) = parts := by
  induction parts with
  | nil => exact absurd rfl hne
  | cons a rest ih =>
    rcases rest with _ | ⟨b, rest2⟩
    · exact splitCharList_of_not_mem sep a (h a (List.mem_cons_self a []))
    · have ha : sep ∉ a := h a (List.mem_cons_self a _)
      unfold joinCharList
      have : a ++ [sep] ++ joinCharList [sep] (b :: rest2)
          = a ++ sep :: joinCharList [sep] (b :: rest2) := by simp
      rw [this, splitCharList_append_sep sep a _ ha,
        ih (by simp) (fun p hp => h p (List.mem_cons_of_mem a hp))]

theorem mem_joinCharList (sep : List Char) (parts : List (List Char)) (x : Char)
    (hx : x ∈ joinCharList sep parts) : x ∈ sep ∨ ∃ p ∈ parts, x ∈ p := by
  induction parts with
  | nil => simp [joinCharList] at hx
  | cons a rest ih =>
    rcases rest with _ | ⟨b, rest2⟩
    · exact Or.inr ⟨a, List.mem_cons_self a [], hx⟩
    · unfold joinCharList at hx
      rcases List.mem_append.mp hx with h1 | h2
      · rcases List.mem_append.mp h1 with h3 | h4
        · exact Or.inr ⟨a, List.mem_cons_self a _, h3⟩
        · exact Or.inl h4
      · rcases ih h2 with h5 | ⟨p, hp, hxp⟩
        · exact Or.inl h5
        · exact Or.inr ⟨p, List.mem_cons_of_mem a hp, hxp⟩

theorem map_mk_map_data (l : List String) :
    (l.map String.data).map String.mk = l := by
  rw [List.map_map]
  have hcomp : (String.mk ∘ String.data) = id := funext fun s => rfl
  rw [hcomp, List.map_id]

/-- C5: for every canonical genotype identifier `chrom_pos_ref_alts` (built by
`genotype_id` from components free of the delimiter characters),
`genotype_id_to_vep_ids` emits exactly one substitution query
`chrom pos . ref alt` per comma-separated alt allele that differs from the
reference, in order, and no query for an alt equal to the reference. -/
theorem claim_C5_vep_queries (chrom pos ref : String) (alts : List String)
    (hc : chrom ≠ "" ∧ '_' ∉ chrom.data)
    (hp : pos ≠ "" ∧ '_' ∉ pos.data)
    (hr : ref ≠ "" ∧ '_' ∉ ref.data)
    (halts : alts ≠ [])
    (ha : ∀ a ∈ alts, '_' ∉ a.data ∧ ',' ∉ a.data) :
    ∃ id, genotype_id chrom pos ref alts = some id
      ∧ genotype_id_to_vep_ids id = some ((alts.filter (fun alt => alt ≠ ref)).map
          (fun alt => chrom ++ " " ++ pos ++ " . " ++ ref ++ " " ++ alt)) := by
  refine ⟨chrom ++ "_" ++ pos ++ "_" ++ ref ++ "_" ++ pyJoin "," alts, ?_, ?_⟩
  · unfold genotype_id
    rw [if_pos ⟨hc.1, hp.1, hr.1⟩]
  · have hjoin : '_' ∉ joinCharList [','] (alts.map String.data) := by
      intro hmem
      rcases mem_joinCharList _ _ _ hmem with h1 | ⟨p, hp2, hxp⟩
      · simp at h1
      · obtain ⟨a, hain, rfl⟩ := List.mem_map.mp hp2
        exact (ha a hain).1 hxp
    have hdata : (chrom ++ "_" ++ pos ++ "_" ++ ref ++ "_" ++ pyJoin "," alts).data
        = chrom.data ++ '_' :: (pos.data ++ '_' :: (ref.data ++ '_' ::
            joinCharList [','] (alts.map String.data))) := by
      simp [String.data_append, pyJoin]
    unfold genotype_id_to_vep_ids pySplit
    rw [hdata, splitCharList_append_sep _ _ _ hc.2, splitCharList_append_sep _ _ _ hp.2,
      splitCharList_append_sep _ _ _ hr.2, splitCharList_of_not_mem _ _ hjoin]
    simp only [List.map_cons, List.map_nil]
    have hgt : pySplit (String.mk (joinCharList [','] (alts.map String.data))) ','
        = alts := by
      unfold pySplit
      have : (String.mk (joinCharList [','] (alts.map String.data))).data
          = joinCharList [','] (alts.map String.data) := rfl
      rw [this, splitCharList_join ',' (alts.map String.data)
        (by simpa using halts) (fun p hp2 => by
          obtain ⟨a, hain, rfl⟩ := List.mem_map.mp hp2
          exact (ha a hain).2)]
      exact map_mk_map_data alts
    have hmkc : String.mk chrom.data = chrom := rfl
    have hmkp : String.mk pos.data = pos := rfl
    have hmkr : String.mk ref.data = ref := rfl
    rw [hmkc, hmkp, hmkr]
    show some ((pySplit (String.mk (joinCharList [','] (alts.map String.data))) ','
      |>.filter (fun alt => alt ≠ ref)).map _) = _
    rw [hgt]

/-- C5 witness: the identifier `1_100_A_A,G` yields exactly the single query
`1 100 . A G`, skipping the alt equal to the reference. -/
theorem claim_C5_vep_queries_witness :
    genotype_id "1" "100" "A" ["A", "G"] = some "1_100_A_A,G"
    ∧ genotype_id_to_vep_ids "1_100_A_A,G" = some ["1 100 . A G"] := by
  obtain ⟨id, h1, h2⟩ := claim_C5_vep_queries "1" "100" "A" ["A", "G"]
    (by decide) (by decide) (by decide) (by decide) (by decide)
  have hid : id = "1_100_A_A,G" := by
    have h3 : some id = some "1_100_A_A,G" := by rw [← h1]; rfl
    injection h3
  subst hid
  exact ⟨h1, by rw [h2]; rfl⟩

example : genotype_id "1" "100" "A" ["A", "G"] = some "1_100_A_A,G" := by decide

example : genotype_id_to_vep_ids "1_100_A_A,G" = some ["1 100 . A G"] := by decide

example : genotype_id_to_vep_ids "15_7237571_C_T,C" = some ["15 7237571 . C T"] := by decide

example : genotype_id_to_vep_ids "bogus" = none := by decide

/-- C4 (code bug): with three distinct substitution queries and the fixed
batch size of 200, `grouper` emits a single batch that contains the three
queries followed by 197 `None` fill values — the comprehension's
`if x is not None` filter tests whole tuples, which are never `None` — so a
batch passed to the predictor is not made up of substitution queries only and
the concatenation of the batches is not the distinct queries. -/
theorem claim_C4_grouper_pads_batches_with_none :
    grouper ["10 100980986 . C T", "10 100980986 . C G", "10 100980986 . C A"] 200
      = [[some "10 100980986 . C T", some "10 100980986 . C G",
          some "10 100980986 . C A"] ++ List.replicate 197 none]
    ∧ none ∈ [some "10 100980986 . C T", some "10 100980986 . C G",
        some "10 100980986 . C A"] ++ List.replicate 197 (none : Option String)
    ∧ ([some "10 100980986 . C T", some "10 100980986 . C G",
        some "10 100980986 . C A"] ++ List.replicate 197 (none : Option String)).length
        = 200 := by
  refine ⟨rfl, ?_, by decide⟩
  simp

theorem mem_pdDropDupAux (x : String) (l seen : List String) :
    x ∈ pdDropDupAux seen l ↔ x ∈ l ∧ x ∉ seen := by
  induction l generalizing seen with
  | nil => simp [pdDropDupAux]
  | cons y ys ih =>
    unfold pdDropDupAux
    by_cases hy : y ∈ seen
    · rw [if_pos hy, ih]
      constructor
      · exact fun ⟨h1, h2⟩ => ⟨List.mem_cons_of_mem y h1, h2⟩
      · rintro ⟨h1, h2⟩
        rcases List.mem_cons.mp h1 with rfl | h3
        · exact absurd hy h2
        · exact ⟨h3, h2⟩
    · rw [if_neg hy]
      simp only [List.mem_cons, ih]
      constructor
      · rintro (rfl | ⟨h1, h2⟩)
        · exact ⟨Or.inl rfl, hy⟩
        · exact ⟨Or.inr h1, fun hm => h2 (Or.inr hm)⟩
      · rintro ⟨rfl | h1, h2⟩
        · exact Or.inl rfl
        · by_cases hxy : x = y
          · exact Or.inl hxy
          · exact Or.inr ⟨h1, fun hm => hm.elim hxy h2⟩

theorem mem_pdDropDup (x : String) (l : List String) : x ∈ pdDropDup l ↔ x ∈ l := by
  rw [pdDropDup, mem_pdDropDupAux]
  simp

theorem nodup_pdDropDupAux (l seen : List String) : (pdDropDupAux seen l).Nodup := by
  induction l generalizing seen with
  | nil => exact List.nodup_nil
  | cons y ys ih =>
    unfold pdDropDupAux
    by_cases hy : y ∈ seen
    · rw [if_pos hy]; exact ih seen
    · rw [if_neg hy]
      refine List.nodup_cons.mpr ⟨fun hm => ?_, ih (y :: seen)⟩
      exact ((mem_pdDropDupAux y ys (y :: seen)).mp hm).2 (List.mem_cons_self y seen)

theorem nodup_pdDropDup (l : List String) : (pdDropDup l).Nodup :=
  nodup_pdDropDupAux l []

theorem pyDictGet_isSome_of_key (tokens : List String) (f : String → String) (t : String)
    (ht : t ∈ tokens) :
    (pyDictGet (tokens.map (fun u => (u, f u))) t).isSome = true := by
  induction tokens with
  | nil => simp at ht
  | cons u us ih =>
    unfold pyDictGet
    simp only [List.map_cons, List.find?]
    by_cases hu : u = t
    · simp [hu]
    · have : (u == t) = false := beq_eq_false_iff_ne.mpr hu
      rw [this]
      rcases List.mem_cons.mp ht with rfl | h2
      · exact absurd rfl hu
      · exact ih h2

theorem mapLookup_eq_some (d : List (String × String)) (ts : List String)
    (h : ∀ t ∈ ts, (pyDictGet d t).isSome = true) :
    mapLookup d ts = some (ts.map (fun t => (pyDictGet d t).getD "")) := by
  induction ts with
  | nil => rfl
  | cons t ts ih =>
    have ht := h t (List.mem_cons_self t ts)
    obtain ⟨v, hv⟩ := Option.isSome_iff_exists.mp ht
    unfold mapLookup
    rw [hv, ih (fun u hu => h u (List.mem_cons_of_mem t hu))]
    simp [hv]

theorem pySorted_eq_of_perm (l1 l2 : List String) (h : l1.Perm l2) :
    pySorted l1 = pySorted l2 := by
  refine List.eq_of_perm_of_sorted ?_ (List.sorted_insertionSort pyLe l1)
    (List.sorted_insertionSort pyLe l2)
  exact ((List.perm_insertionSort pyLe l1).trans h).trans
    (List.perm_insertionSort pyLe l2).symm

theorem mapExcept_ok_mem {α β : Type} (f : α → Except Unit β) (l : List α)
    (out : List β) (h : mapExcept f l = .ok out) (x : α) (hx : x ∈ l) (y : β)
    (hfx : f x = .ok y) : y ∈ out := by
  induction l generalizing out with
  | nil => simp at hx
  | cons a as ih =>
    unfold mapExcept at h
    rcases hfa : f a with e | b <;> rw [hfa] at h
    · exact absurd h (by simp)
    · rcases hrest : mapExcept f as with e | bs <;> rw [hrest] at h
      · exact absurd h (by simp)
      · simp only [Except.ok.injEq] at h
        subst h
        rcases List.mem_cons.mp hx with rfl | h2
        · rw [hfa] at hfx
          simp only [Except.ok.injEq] at hfx
          exact hfx ▸ List.mem_cons_self b bs
        · exact List.mem_cons_of_mem b (ih bs hrest h2)

theorem mapExcept_total {α β : Type} (f : α → Except Unit β) (l : List α)
    (h : ∀ x ∈ l, ∃ y, f x = .ok y) : ∃ out, mapExcept f l = .ok out := by
  induction l with
  | nil => exact ⟨[], rfl⟩
  | cons a as ih =>
    obtain ⟨b, hb⟩ := h a (List.mem_cons_self a as)
    obtain ⟨bs, hbs⟩ := ih (fun x hx => h x (List.mem_cons_of_mem a hx))
    exact ⟨b :: bs, by unfold mapExcept; rw [hb, hbs]⟩

theorem pyTruthy_getD_ne (o : Option String) (h : pyTruthy o = true) : o.getD "" ≠ "" := by
  cases o with
  | none => simp [pyTruthy] at h
  | some s =>
    simp only [pyTruthy, Bool.not_eq_true'] at h
    simpa using beq_eq_false_iff_ne.mp h

/-- The modelled accessor returns either a site whose mapping is the identity
table over the distinct single-character tokens, or a site with no mapping. -/
theorem get_chr_pos_ref_cases (seqStore : String → String → Option String)
    (loc : Option String) (gts : List (List String)) :
    (∃ ref, (get_chr_pos_ref seqStore loc gts).alleleMapping
        = (pdDropDup gts.flatten).map (fun u => (u, if u = ref then ref else u)))
    ∨ (get_chr_pos_ref seqStore loc gts).alleleMapping = [] := by
  unfold get_chr_pos_ref
  cases parseLocation loc with
  | none => exact Or.inr rfl
  | some cp =>
    obtain ⟨chrom, pos⟩ := cp
    simp only
    cases seqStore chrom pos with
    | none => exact Or.inr rfl
    | some ref =>
      simp only
      by_cases hall : ((pdDropDup gts.flatten).all fun u => decide (u.length = 1)) = true
      · rw [if_pos hall]; exact Or.inl ⟨ref, rfl⟩
      · rw [if_neg hall]; exact Or.inr rfl

/-- When the modelled accessor produces a non-empty allele mapping, it covers
every token of every genotype observed at the site (§3's Variant Site
invariant). -/
theorem get_chr_pos_ref_covers (seqStore : String → String → Option String)
    (loc : Option String) (gts : List (List String))
    (hne : (get_chr_pos_ref seqStore loc gts).alleleMapping ≠ [])
    (g : List String) (hg : g ∈ gts) (t : String) (ht : t ∈ g) :
    (pyDictGet (get_chr_pos_ref seqStore loc gts).alleleMapping t).isSome = true := by
  rcases get_chr_pos_ref_cases seqStore loc gts with ⟨ref, heq⟩ | hempty
  · rw [heq]
    refine pyDictGet_isSome_of_key _ _ t ?_
    exact (mem_pdDropDup t _).mpr (List.mem_flatten.mpr ⟨g, hg, ht⟩)
  · exact absurd hempty hne

theorem parse_mem_all_genotypes (records : List ClinVariantRow) (r : ClinVariantRow)
    (hr : r ∈ records) :
    parse_genotype r.genotypeText ∈ all_genotypes_for records r.rsid := by
  unfold all_genotypes_for
  exact List.mem_map_of_mem _ (List.mem_filter.mpr ⟨hr, by simp⟩)

/-- Under the modelled accessor, a non-empty allele mapping for a record's
rsID covers all of the record's parsed tokens, so the per-record body of
`get_genotype_ids` never raises. -/
theorem rsToCoords_covers (seqStore : String → String → Option String)
    (records : List ClinVariantRow) (r : ClinVariantRow) (hr : r ∈ records)
    (hne : (rsToCoords seqStore records r.rsid).alleleMapping ≠ [])
    (t : String) (ht : t ∈ parse_genotype r.genotypeText) :
    (pyDictGet (rsToCoords seqStore records r.rsid).alleleMapping t).isSome = true := by
  unfold rsToCoords at hne ⊢
  rcases hf : records.find? (fun q => q.rsid == r.rsid) with _ | r0 <;> rw [hf] at hne ⊢
  · exact absurd rfl hne
  · exact get_chr_pos_ref_covers seqStore r0.location (all_genotypes_for records r.rsid) hne
      (parse_genotype r.genotypeText) (parse_mem_all_genotypes records r hr) t ht

theorem recordGenotypeId_ne_error (seqStore : String → String → Option String)
    (records : List ClinVariantRow) (r : ClinVariantRow) (hr : r ∈ records) :
    ∃ v, recordGenotypeId (rsToCoords seqStore records r.rsid)
      (parse_genotype r.genotypeText) = .ok v := by
  unfold recordGenotypeId
  split
  · next hguard =>
    have hne : (rsToCoords seqStore records r.rsid).alleleMapping ≠ [] := by
      simp only [Bool.and_eq_true, Bool.not_eq_true'] at hguard
      exact fun he => by simp [he] at hguard
    have hcov := fun t ht => rsToCoords_covers seqStore records r hr hne t ht
    rw [mapLookup_eq_some _ _ hcov]
    exact ⟨_, rfl⟩
  · exact ⟨none, rfl⟩

theorem get_genotype_ids_total (seqStore : String → String → Option String)
    (records : List ClinVariantRow) :
    ∃ out, get_genotype_ids seqStore records = .ok out := by
  unfold get_genotype_ids
  refine mapExcept_total _ records (fun r hr => ?_)
  obtain ⟨v, hv⟩ := recordGenotypeId_ne_error seqStore records r hr
  exact ⟨(r, v), by rw [hv]⟩

/-- C1: for every record whose rsID resolved to truthy chromosome, position
and reference and a non-empty allele mapping covering all of the record's
parsed genotype tokens, `get_genotype_ids` assigns the identifier
`chrom_pos_ref_` followed by the comma-join of the lexicographically sorted
mapped alleles; consequently two records with the same rsID and the same
multiset of genotype tokens receive identical identifiers. -/
theorem claim_C1_canonical_identifier
    (seqStore : String → String → Option String) (records : List ClinVariantRow)
    (r : ClinVariantRow) (hr : r ∈ records)
    (h1 : pyTruthy (rsToCoords seqStore records r.rsid).chrom = true)
    (h2 : pyTruthy (rsToCoords seqStore records r.rsid).pos = true)
    (h3 : pyTruthy (rsToCoords seqStore records r.rsid).ref = true)
    (hne : (rsToCoords seqStore records r.rsid).alleleMapping ≠ [])
    (hcov : ∀ t ∈ parse_genotype r.genotypeText,
      (pyDictGet (rsToCoords seqStore records r.rsid).alleleMapping t).isSome = true) :
    recordGenotypeId (rsToCoords seqStore records r.rsid) (parse_genotype r.genotypeText)
      = .ok (some ((rsToCoords seqStore records r.rsid).chrom.getD "" ++ "_"
        ++ (rsToCoords seqStore records r.rsid).pos.getD "" ++ "_"
        ++ (rsToCoords seqStore records r.rsid).ref.getD "" ++ "_"
        ++ pyJoin "," (pySorted ((parse_genotype r.genotypeText).map
            (fun t => (pyDictGet (rsToCoords seqStore records r.rsid).alleleMapping t).getD "")))))
    ∧ (∀ r2 ∈ records, r2.rsid = r.rsid →
        (parse_genotype r2.genotypeText).Perm (parse_genotype r.genotypeText) →
        recordGenotypeId (rsToCoords seqStore records r2.rsid) (parse_genotype r2.genotypeText)
          = recordGenotypeId (rsToCoords seqStore records r.rsid) (parse_genotype r.genotypeText))
    ∧ (∀ out, get_genotype_ids seqStore records = .ok out →
        (r, some ((rsToCoords seqStore records r.rsid).chrom.getD "" ++ "_"
          ++ (rsToCoords seqStore records r.rsid).pos.getD "" ++ "_"
          ++ (rsToCoords seqStore records r.rsid).ref.getD "" ++ "_"
          ++ pyJoin "," (pySorted ((parse_genotype r.genotypeText).map
              (fun t => (pyDictGet (rsToCoords seqStore records r.rsid).alleleMapping t).getD "")))))
          ∈ out) := by
  have hie : (rsToCoords seqStore records r.rsid).alleleMapping.isEmpty = false := by
    rcases hml : (rsToCoords seqStore records r.rsid).alleleMapping with _ | ⟨p, ps⟩
    · exact absurd hml hne
    · rfl
  have hguard : (pyTruthy (rsToCoords seqStore records r.rsid).chrom
      && pyTruthy (rsToCoords seqStore records r.rsid).pos
      && pyTruthy (rsToCoords seqStore records r.rsid).ref
      && !(rsToCoords seqStore records r.rsid).alleleMapping.isEmpty) = true := by
    rw [h1, h2, h3, hie]
    rfl
  have hpart1 : recordGenotypeId (rsToCoords seqStore records r.rsid)
      (parse_genotype r.genotypeText)
      = .ok (some ((rsToCoords seqStore records r.rsid).chrom.getD "" ++ "_"
        ++ (rsToCoords seqStore records r.rsid).pos.getD "" ++ "_"
        ++ (rsToCoords seqStore records r.rsid).ref.getD "" ++ "_"
        ++ pyJoin "," (pySorted ((parse_genotype r.genotypeText).map
            (fun t => (pyDictGet (rsToCoords seqStore records r.rsid).alleleMapping t).getD ""))))) := by
    unfold recordGenotypeId
    rw [if_pos hguard, mapLookup_eq_some _ _ hcov]
    simp only
    unfold genotype_id
    rw [if_pos ⟨pyTruthy_getD_ne _ h1, pyTruthy_getD_ne _ h2, pyTruthy_getD_ne _ h3⟩]
  refine ⟨hpart1, ?_, ?_⟩
  · intro r2 _ heq hperm
    rw [heq]
    have hcov2 : ∀ t ∈ parse_genotype r2.genotypeText,
        (pyDictGet (rsToCoords seqStore records r.rsid).alleleMapping t).isSome = true :=
      fun t ht => hcov t (hperm.mem_iff.mp ht)
    unfold recordGenotypeId
    rw [if_pos hguard, if_pos hguard, mapLookup_eq_some _ _ hcov2, mapLookup_eq_some _ _ hcov]
    simp only
    rw [pySorted_eq_of_perm _ _ (hperm.map _)]
  · intro out hout
    unfold get_genotype_ids at hout
    refine mapExcept_ok_mem _ records out hout r hr _ ?_
    rw [hpart1]

/-- C3: if site resolution for a record's rsID failed, or any of the record's
parsed genotype tokens is absent from the site's allele mapping (for example a
star-allele token that the accessor left unmapped), the record's canonical
identifier is null, no exception is raised, and processing continues over the
remaining records. -/
theorem claim_C3_null_identifier_no_exception
    (seqStore : String → String → Option String) (records : List ClinVariantRow)
    (r : ClinVariantRow) (hr : r ∈ records)
    (h : (rsToCoords seqStore records r.rsid).chrom = none
      ∨ ∃ t ∈ parse_genotype r.genotypeText,
          pyDictGet (rsToCoords seqStore records r.rsid).alleleMapping t = none) :
    recordGenotypeId (rsToCoords seqStore records r.rsid) (parse_genotype r.genotypeText)
      = .ok none
    ∧ ∃ out, get_genotype_ids seqStore records = .ok out ∧ (r, none) ∈ out := by
  have hguard : (pyTruthy (rsToCoords seqStore records r.rsid).chrom
      && pyTruthy (rsToCoords seqStore records r.rsid).pos
      && pyTruthy (rsToCoords seqStore records r.rsid).ref
      && !(rsToCoords seqStore records r.rsid).alleleMapping.isEmpty) = false := by
    rcases h with hfail | ⟨t, ht, hnone⟩
    · rw [hfail]
      rfl
    · rcases hml : (rsToCoords seqStore records r.rsid).alleleMapping with _ | ⟨p, ps⟩
      · simp
      · exfalso
        have hcov := rsToCoords_covers seqStore records r hr (by rw [hml]; simp) t ht
        rw [hnone] at hcov
        simp at hcov
  have hok : recordGenotypeId (rsToCoords seqStore records r.rsid)
      (parse_genotype r.genotypeText) = .ok none := by
    unfold recordGenotypeId
    rw [if_neg (by rw [hguard]; simp)]
  obtain ⟨out, hout⟩ := get_genotype_ids_total seqStore records
  refine ⟨hok, out, hout, ?_⟩
  unfold get_genotype_ids at hout
  refine mapExcept_ok_mem _ records out hout r hr _ ?_
  rw [hok]

/-- C1 witness: two records of the same rsID with genotypes `A/G` and `G/A`
(the same token multiset in different order) both receive `1_100_A_A,G`. -/
theorem claim_C1_canonical_identifier_witness :
    recordGenotypeId (rsToCoords seqStoreA [rowAG, rowGA] rowAG.rsid)
      (parse_genotype rowAG.genotypeText) = .ok (some "1_100_A_A,G")
    ∧ recordGenotypeId (rsToCoords seqStoreA [rowAG, rowGA] rowGA.rsid)
      (parse_genotype rowGA.genotypeText) = .ok (some "1_100_A_A,G") := by
  have h := claim_C1_canonical_identifier seqStoreA [rowAG, rowGA] rowAG
    (by decide) (by decide) (by decide) (by decide) (by decide) (by decide)
  exact ⟨h.1.trans rfl, (h.2.1 rowGA (by decide) (by decide) (by decide)).trans
    (h.1.trans rfl)⟩

/-- C3 witness: a site observing the star alleles `*1`, `*2` carries no
mapping, so the `*1/*2` record's identifier is null, nothing is raised, and
the run completes with both records annotated. -/
theorem claim_C3_null_identifier_no_exception_witness :
    recordGenotypeId (rsToCoords seqStoreA [rowSnp, rowStar] rowStar.rsid)
      (parse_genotype rowStar.genotypeText) = .ok none
    ∧ get_genotype_ids seqStoreA [rowSnp, rowStar]
        = .ok [(rowSnp, none), (rowStar, none)] :=
  ⟨(claim_C3_null_identifier_no_exception seqStoreA [rowSnp, rowStar] rowStar (by decide)
      (Or.inr (by decide))).1, rfl⟩

theorem map_rsid_filter (records : List ClinVariantRow) (a : String) :
    (records.filter (fun r => r.rsid != a)).map (fun r => r.rsid)
      = (records.map (fun r => r.rsid)).filter (fun v => v != a) := by
  induction records with
  | nil => rfl
  | cons x xs ih =>
    simp only [List.filter_cons, List.map_cons]
    by_cases hx : (x.rsid != a) = true
    · rw [if_pos hx, if_pos hx, List.map_cons, ih]
    · rw [if_neg hx, if_neg hx, ih]

theorem pdDropDupAux_cons (seen : List String) (x : String) (xs : List String) :
    pdDropDupAux seen (x :: xs)
      = if x ∈ seen then pdDropDupAux seen xs else x :: pdDropDupAux (x :: seen) xs := rfl

theorem pdDropDupAux_filter (a : String) (l seen1 seen2 : List String)
    (h : ∀ x, x ≠ a → (x ∈ seen1 ↔ x ∈ seen2)) :
    pdDropDupAux seen1 (l.filter (fun v => v != a))
      = (pdDropDupAux seen2 l).filter (fun v => v != a) := by
  induction l generalizing seen1 seen2 with
  | nil => rfl
  | cons x xs ih =>
    by_cases hxa : x = a
    · subst hxa
      simp only [List.filter_cons, bne_self_eq_false, Bool.false_eq_true, if_false,
        pdDropDupAux_cons]
      by_cases hx2 : x ∈ seen2
      · rw [if_pos hx2]
        exact ih seen1 seen2 h
      · rw [if_neg hx2]
        simp only [List.filter_cons, bne_self_eq_false, Bool.false_eq_true, if_false]
        refine ih seen1 (x :: seen2) (fun y hy => ?_)
        rw [h y hy]
        simp only [List.mem_cons]
        exact ⟨Or.inr, fun hor => hor.elim (fun he => absurd he hy) id⟩
    · have hxb : (x != a) = true := bne_iff_ne.mpr hxa
      simp only [List.filter_cons, hxb, if_true, pdDropDupAux_cons]
      by_cases hx1 : x ∈ seen1
      · rw [if_pos hx1, if_pos ((h x hxa).mp hx1)]
        exact ih seen1 seen2 h
      · rw [if_neg hx1, if_neg (fun hm => hx1 ((h x hxa).mpr hm))]
        simp only [List.filter_cons, hxb, if_true]
        refine congrArg (x :: ·) (ih (x :: seen1) (x :: seen2) (fun y hy => ?_))
        simp only [List.mem_cons]
        rw [h y hy]

theorem find?_rsid_filter (records : List ClinVariantRow) (a v : String) (hv : v ≠ a) :
    (records.filter (fun r => r.rsid != a)).find? (fun q => q.rsid == v)
      = records.find? (fun q => q.rsid == v) := by
  induction records with
  | nil => rfl
  | cons x xs ih =>
    have hfc : ∀ (l : List ClinVariantRow),
        List.find? (fun q => q.rsid == v) (x :: l)
          = if x.rsid = v then some x else List.find? (fun q => q.rsid == v) l := by
      intro l
      by_cases hx : x.rsid = v
      · rw [if_pos hx]
        exact List.find?_cons_of_pos l (by simpa using hx)
      · rw [if_neg hx]
        exact List.find?_cons_of_neg l (by simpa using hx)
    by_cases hx : x.rsid = v
    · have h1 : (x.rsid != a) = true := bne_iff_ne.mpr (fun he => hv (hx ▸ he))
      rw [List.filter_cons, if_pos h1, hfc, hfc, if_pos hx, if_pos hx]
    · by_cases ha : x.rsid = a
      · have h1 : (x.rsid != a) = false := by simp [ha]
        rw [List.filter_cons, if_neg (by simp [h1]), ih, hfc, if_neg hx]
      · have h1 : (x.rsid != a) = true := bne_iff_ne.mpr ha
        rw [List.filter_cons, if_pos h1, hfc, hfc, if_neg hx, if_neg hx, ih]

theorem filter_rsid_filter (records : List ClinVariantRow) (a v : String) (hv : v ≠ a) :
    (records.filter (fun r => r.rsid != a)).filter (fun q => q.rsid == v)
      = records.filter (fun q => q.rsid == v) := by
  induction records with
  | nil => rfl
  | cons x xs ih =>
    by_cases hx : x.rsid = v
    · have h1 : (x.rsid != a) = true := bne_iff_ne.mpr (fun he => hv (hx ▸ he))
      have h2 : (x.rsid == v) = true := by simpa using hx
      rw [List.filter_cons, if_pos h1, List.filter_cons, if_pos h2,
        List.filter_cons, if_pos h2, ih]
    · have h2 : (x.rsid == v) = false := by simpa using hx
      by_cases ha : x.rsid = a
      · have h1 : (x.rsid != a) = false := by simp [ha]
        rw [List.filter_cons, if_neg (by simp [h1]), ih,
          List.filter_cons, if_neg (by simp [h2])]
      · have h1 : (x.rsid != a) = true := bne_iff_ne.mpr ha
        rw [List.filter_cons, if_pos h1, List.filter_cons, if_neg (by simp [h2]),
          List.filter_cons, if_neg (by simp [h2]), ih]

theorem all_genotypes_filter (records : List ClinVariantRow) (a v : String) (hv : v ≠ a) :
    all_genotypes_for (records.filter (fun r => r.rsid != a)) v
      = all_genotypes_for records v := by
  unfold all_genotypes_for
  rw [filter_rsid_filter records a v hv]

theorem rsToCoords_filter (seqStore : String → String → Option String)
    (records : List ClinVariantRow) (a v : String) (hv : v ≠ a) :
    rsToCoords seqStore (records.filter (fun r => r.rsid != a)) v
      = rsToCoords seqStore records v := by
  unfold rsToCoords
  rw [find?_rsid_filter records a v hv, all_genotypes_filter records a v hv]

theorem countP_congr_list (l : List String) (p q : String → Bool)
    (h : ∀ x ∈ l, p x = q x) : l.countP p = l.countP q := by
  induction l with
  | nil => rfl
  | cons x xs ih =>
    rw [List.countP_cons, List.countP_cons, h x (List.mem_cons_self x xs),
      ih (fun y hy => h y (List.mem_cons_of_mem x hy))]

theorem countP_extract (l : List String) (a : String) (q : String → Bool)
    (h1 : l.count a = 1) (h2 : q a = true) :
    l.countP q = (l.filter (fun v => v != a)).countP q + 1 := by
  induction l with
  | nil => simp at h1
  | cons x xs ih =>
    by_cases hx : x = a
    · subst hx
      rw [List.count_cons_self] at h1
      have h0 : x ∉ xs := List.count_eq_zero.mp (by omega)
      have hfs : xs.filter (fun v => v != x) = xs :=
        List.filter_eq_self.mpr (fun b hb => bne_iff_ne.mpr (fun he => h0 (he ▸ hb)))
      rw [List.filter_cons]
      simp only [bne_self_eq_false, Bool.false_eq_true, if_false, hfs,
        List.countP_cons, h2]
      simp
    · have hcount : xs.count a = 1 := by
        rw [List.count_cons, if_neg (by simpa using hx)] at h1
        simpa using h1
      rw [List.countP_cons, ih hcount, List.filter_cons,
        if_pos (bne_iff_ne.mpr hx), List.countP_cons]
      omega

theorem count_pdDropDup_eq_one (l : List String) (a : String) (h : a ∈ l) :
    (pdDropDup l).count a = 1 :=
  List.count_eq_one_of_mem (nodup_pdDropDup l) ((mem_pdDropDup a l).mpr h)

theorem mapLookup_congr (d1 d2 : List (String × String))
    (h : ∀ t, pyDictGet d1 t = pyDictGet d2 t) (ts : List String) :
    mapLookup d1 ts = mapLookup d2 ts := by
  induction ts with
  | nil => rfl
  | cons t ts ih =>
    unfold mapLookup
    rw [h t, ih]

/-- C8: a rsID whose allele mapping has more than two members contributes
exactly 1 to the multi-allelic counter however many records reference it —
removing all of its records removes exactly 1 from the counter and leaves
every other rsID's contribution unchanged — and per-record resolution is one
uniform rule: it depends only on the site's truthiness and lookups, never on
the mapping's size. -/
theorem claim_C8_multiallelic_counted_once
    (seqStore : String → String → Option String) (records : List ClinVariantRow)
    (rsid : String)
    (hmem : rsid ∈ records.map (fun r => r.rsid))
    (hmulti : 2 < (rsToCoords seqStore records rsid).alleleMapping.length) :
    rs_with_more_than_2_alleles seqStore records
      = rs_with_more_than_2_alleles seqStore (records.filter (fun r => r.rsid != rsid)) + 1
    ∧ (∀ site site2 : SiteInfo, ∀ parsed : List String,
        site.chrom = site2.chrom → site.pos = site2.pos → site.ref = site2.ref →
        site.alleleMapping.isEmpty = site2.alleleMapping.isEmpty →
        (∀ t, pyDictGet site.alleleMapping t = pyDictGet site2.alleleMapping t) →
        recordGenotypeId site parsed = recordGenotypeId site2 parsed) := by
  constructor
  · unfold rs_with_more_than_2_alleles
    rw [map_rsid_filter]
    have hdd : pdDropDup ((records.map (fun r => r.rsid)).filter (fun v => v != rsid))
        = (pdDropDup (records.map (fun r => r.rsid))).filter (fun v => v != rsid) :=
      pdDropDupAux_filter rsid _ [] [] (fun _ _ => Iff.rfl)
    rw [hdd]
    rw [countP_congr_list _
      (fun v => decide (2 < (rsToCoords seqStore (records.filter (fun r => r.rsid != rsid)) v).alleleMapping.length))
      (fun v => decide (2 < (rsToCoords seqStore records v).alleleMapping.length))
      (fun v hvmem => by
        have hvne : v ≠ rsid := bne_iff_ne.mp (List.mem_filter.mp hvmem).2
        show decide (2 < (rsToCoords seqStore (records.filter (fun r => r.rsid != rsid)) v).alleleMapping.length)
          = decide (2 < (rsToCoords seqStore records v).alleleMapping.length)
        rw [rsToCoords_filter seqStore records rsid v hvne])]
    exact countP_extract _ rsid _ (count_pdDropDup_eq_one _ _ hmem)
      (decide_eq_true hmulti)
  · intro site site2 parsed hc hp hrf hie hlookup
    unfold recordGenotypeId
    rw [hc, hp, hrf, hie, mapLookup_congr _ _ hlookup parsed]

/-- C8 witness: rsID `rs1` observes four alleles over two records; its
counter contribution is exactly 1: removing its records lowers the counter by
exactly one. -/
theorem claim_C8_multiallelic_counted_once_witness :
    rs_with_more_than_2_alleles seqStoreA [rowAG, rowCT, rowRs2]
      = rs_with_more_than_2_alleles seqStoreA
          ([rowAG, rowCT, rowRs2].filter (fun r => r.rsid != "rs1")) + 1 :=
  (claim_C8_multiallelic_counted_once seqStoreA [rowAG, rowCT, rowRs2] "rs1"
    (by decide) (by decide)).1

/-- C10: invoked with zero Genotype/Allele Records, the matcher does not
return an empty result — `pd.concat` of the empty list of collected frames
raises, whatever the variant annotations are. -/
theorem claim_C10_empty_clinical_alleles_raises (anns : List AnnRow) :
    associate_annotations_with_alleles anns [] = .error () := rfl

theorem dropDupGenotypeVaidAux_cons (seen : List (Option String × Option String))
    (x : MergedRow) (xs : List MergedRow) :
    dropDupGenotypeVaidAux seen (x :: xs)
      = if (x.genotype, x.vaid) ∈ seen then dropDupGenotypeVaidAux seen xs
        else x :: dropDupGenotypeVaidAux ((x.genotype, x.vaid) :: seen) xs := rfl

theorem dropDupGenotypeVaidAux_idem (l : List MergedRow)
    (seen : List (Option String × Option String)) :
    dropDupGenotypeVaidAux seen (dropDupGenotypeVaidAux seen l)
      = dropDupGenotypeVaidAux seen l := by
  induction l generalizing seen with
  | nil => rfl
  | cons x xs ih =>
    by_cases hx : (x.genotype, x.vaid) ∈ seen
    · rw [dropDupGenotypeVaidAux_cons, if_pos hx]
      exact ih seen
    · rw [dropDupGenotypeVaidAux_cons, if_neg hx, dropDupGenotypeVaidAux_cons, if_neg hx,
        ih ((x.genotype, x.vaid) :: seen)]

theorem dropDupGenotypeVaidAux_countP_zero (l : List MergedRow)
    (seen : List (Option String × Option String)) (k : Option String × Option String)
    (hk : k ∈ seen) :
    (dropDupGenotypeVaidAux seen l).countP (fun m => decide ((m.genotype, m.vaid) = k))
      = 0 := by
  induction l generalizing seen with
  | nil => rfl
  | cons x xs ih =>
    by_cases hx : (x.genotype, x.vaid) ∈ seen
    · rw [dropDupGenotypeVaidAux_cons, if_pos hx]
      exact ih seen hk
    · rw [dropDupGenotypeVaidAux_cons, if_neg hx, List.countP_cons]
      have hne : ((x.genotype, x.vaid) = k) = False :=
        eq_false (fun he => hx (he ▸ hk))
      rw [ih ((x.genotype, x.vaid) :: seen) (List.mem_cons_of_mem _ hk)]
      simp [hne]

theorem dropDupGenotypeVaidAux_countP_le_one (l : List MergedRow)
    (seen : List (Option String × Option String)) (k : Option String × Option String) :
    (dropDupGenotypeVaidAux seen l).countP (fun m => decide ((m.genotype, m.vaid) = k))
      ≤ 1 := by
  induction l generalizing seen with
  | nil => simp [dropDupGenotypeVaidAux]
  | cons x xs ih =>
    by_cases hx : (x.genotype, x.vaid) ∈ seen
    · rw [dropDupGenotypeVaidAux_cons, if_pos hx]
      exact ih seen
    · rw [dropDupGenotypeVaidAux_cons, if_neg hx, List.countP_cons]
      by_cases hxk : (x.genotype, x.vaid) = k
      · rw [dropDupGenotypeVaidAux_countP_zero xs _ k
          (hxk ▸ List.mem_cons_self (x.genotype, x.vaid) seen)]
        simp [hxk]
      · simpa [hxk] using ih ((x.genotype, x.vaid) :: seen)

/-- C9: deduplication on (genotype text, Variant Annotation ID) is
idempotent on the matcher's output, and each such pair occurs at most once in
it, even when a genotype matched the same Variant Annotation through both
passes. -/
theorem claim_C9_dedup_idempotent (anns : List AnnRow) (clins : List ClinAlleleRow)
    (out : List MergedRow)
    (hout : associate_annotations_with_alleles anns clins = .ok out) :
    dropDupGenotypeVaid out = out
    ∧ ∀ k : Option String × Option String,
        out.countP (fun m => decide ((m.genotype, m.vaid) = k)) ≤ 1 := by
  unfold associate_annotations_with_alleles at hout
  by_cases he : (assocAllResults anns clins).isEmpty = true
  · rw [if_pos he] at hout
    exact absurd hout (by simp)
  · rw [if_neg he] at hout
    have hres : dropDupGenotypeVaid (assocAllResults anns clins).flatten = out := by
      injection hout
    subst hres
    exact ⟨dropDupGenotypeVaidAux_idem _ [], fun k => dropDupGenotypeVaidAux_countP_le_one _ [] k⟩

/-- C9 witness: on one annotation with allele text `A` and one genotype
`A/G`, the matcher returns one matched row and one placeholder; the result is
a fixed point of the dedup and holds the pair (`A/G`, `va1`) once. -/
theorem claim_C9_dedup_idempotent_witness :
    dropDupGenotypeVaid
      [⟨some "ca1", some "A/G", some "A", some "va1", some "A", some "A", some "A"⟩,
       ⟨some "ca1", some "A/G", some "G", none, none, none, none⟩]
      = [⟨some "ca1", some "A/G", some "A", some "va1", some "A", some "A", some "A"⟩,
         ⟨some "ca1", some "A/G", some "G", none, none, none, none⟩]
    ∧ ([⟨some "ca1", some "A/G", some "A", some "va1", some "A", some "A", some "A"⟩,
        ⟨some "ca1", some "A/G", some "G", none, none, none, none⟩] : List MergedRow).countP
          (fun m => decide ((m.genotype, m.vaid) = (some "A/G", some "va1"))) ≤ 1 :=
  have h := claim_C9_dedup_idempotent [⟨"va1", "A"⟩] [⟨"ca1", "A/G"⟩]
    [⟨some "ca1", some "A/G", some "A", some "va1", some "A", some "A", some "A"⟩,
     ⟨some "ca1", some "A/G", some "G", none, none, none, none⟩] rfl
  ⟨h.1, h.2 (some "A/G", some "va1")⟩

theorem simple_parse_genotype_ne_nil (g : String) : simple_parse_genotype g ≠ [] := by
  unfold simple_parse_genotype
  rcases reMatchTwoTokens g.data with _ | ⟨t1, t2⟩
  · rcases g.data with _ | ⟨c0, _ | ⟨c1, _ | _⟩⟩
    · simp
    · simp
    · simp only
      split <;> simp
    · simp
  · simp

theorem outerMerge_left_exists (ls : List SplitClinRow) (rs : List SplitAnnRow)
    (key : SplitClinRow → SplitAnnRow → Bool) (c : SplitClinRow) (hc : c ∈ ls) :
    ∃ m ∈ outerMerge ls rs key,
      m.caid = some c.caid ∧ m.genotype = some c.genotype ∧ m.parsed = some c.parsed := by
  unfold outerMerge
  rcases hf : rs.filter (key c) with _ | ⟨a, as⟩
  · refine ⟨mergedLeft c, List.mem_append_left _ ?_, rfl, rfl, rfl⟩
    refine List.mem_flatMap.mpr ⟨c, hc, ?_⟩
    rw [hf]
    exact List.mem_singleton.mpr rfl
  · refine ⟨mergedBoth c a, List.mem_append_left _ ?_, rfl, rfl, rfl⟩
    refine List.mem_flatMap.mpr ⟨c, hc, ?_⟩
    rw [hf]
    exact List.mem_map_of_mem _ (List.mem_cons_self a as)

theorem outerMerge_vaid_none_shape (ls : List SplitClinRow) (rs : List SplitAnnRow)
    (key : SplitClinRow → SplitAnnRow → Bool) (m : MergedRow)
    (hm : m ∈ outerMerge ls rs key) (hv : m.vaid = none) :
    ∃ c ∈ ls, m = mergedLeft c := by
  unfold outerMerge at hm
  rcases List.mem_append.mp hm with hleft | hright
  · obtain ⟨c, hc, hmc⟩ := List.mem_flatMap.mp hleft
    refine ⟨c, hc, ?_⟩
    rcases hf : rs.filter (key c) with _ | ⟨a, as⟩ <;> rw [hf] at hmc
    · exact (List.mem_singleton.mp hmc)
    · obtain ⟨a2, _, hma⟩ := List.mem_map.mp hmc
      rw [← hma] at hv
      simp [mergedBoth] at hv
  · obtain ⟨a, _, hma⟩ := List.mem_map.mp hright
    rw [← hma] at hv
    simp [mergedRight] at hv

theorem assocIter_exists (anns : List AnnRow) (clins : List ClinAlleleRow)
    (c : SplitClinRow) (hc : c ∈ splitClinRows clins) :
    ∃ m ∈ (assocIter anns clins c).flatten,
      m.genotype = some c.genotype ∧ m.parsed = some c.parsed := by
  unfold assocIter
  by_cases hb : ((assocRowsFirst anns clins c).isEmpty
      && (assocRowsSecond anns clins c).isEmpty) = true
  · rw [if_pos hb]
    obtain ⟨m, hm, _, h2, h3⟩ := outerMerge_left_exists (splitClinRows clins)
      (splitAnnRows anns) (fun c a => c.genotype == a.split1) c hc
    refine ⟨m, ?_, h2, h3⟩
    refine List.mem_flatten.mpr ⟨_, List.mem_singleton.mpr rfl, ?_⟩
    refine List.mem_filter.mpr ⟨hm, ?_⟩
    simp [assocMerged1, h2, h3]
  · rw [if_neg hb]
    simp only [Bool.and_eq_true, List.isEmpty_iff] at hb
    by_cases h1 : assocRowsFirst anns clins c = []
    · have h2 : assocRowsSecond anns clins c ≠ [] := fun h2 => hb ⟨h1, h2⟩
      obtain ⟨m, hm⟩ := List.exists_mem_of_ne_nil _ h2
      have hcond := (List.mem_filter.mp hm).2
      simp only [Bool.and_eq_true, beq_iff_eq] at hcond
      exact ⟨m, List.mem_flatten.mpr ⟨_, by simp, hm⟩, hcond.1.1, hcond.1.2⟩
    · obtain ⟨m, hm⟩ := List.exists_mem_of_ne_nil _ h1
      have hcond := (List.mem_filter.mp hm).2
      simp only [Bool.and_eq_true, beq_iff_eq] at hcond
      exact ⟨m, List.mem_flatten.mpr ⟨_, by simp, hm⟩, hcond.1.1, hcond.1.2⟩

theorem assocIter_mem_merged (anns : List AnnRow) (clins : List ClinAlleleRow)
    (c : SplitClinRow) (df : List MergedRow) (hdf : df ∈ assocIter anns clins c)
    (m : MergedRow) (hm : m ∈ df) :
    m ∈ assocMerged1 anns clins ∨ m ∈ assocMerged2 anns clins := by
  unfold assocIter at hdf
  split at hdf
  · rw [List.mem_singleton.mp hdf] at hm
    exact Or.inl (List.mem_filter.mp hm).1
  · rcases List.mem_cons.mp hdf with rfl | hdf2
    · exact Or.inl (List.mem_filter.mp hm).1
    · rw [List.mem_singleton.mp hdf2] at hm
      exact Or.inr (List.mem_filter.mp hm).1

theorem dropDupGenotypeVaidAux_subset (l : List MergedRow)
    (seen : List (Option String × Option String)) :
    dropDupGenotypeVaidAux seen l ⊆ l := by
  induction l generalizing seen with
  | nil => exact fun x hx => hx
  | cons x xs ih =>
    intro y hy
    rw [dropDupGenotypeVaidAux_cons] at hy
    split at hy
    · exact List.mem_cons_of_mem x (ih seen hy)
    · rcases List.mem_cons.mp hy with rfl | hy2
      · exact List.mem_cons_self y xs
      · exact List.mem_cons_of_mem x (ih _ hy2)

theorem dropDupGenotypeVaidAux_key_surj (l : List MergedRow)
    (seen : List (Option String × Option String)) (x : MergedRow) (hx : x ∈ l) :
    (x.genotype, x.vaid) ∈ seen
    ∨ ∃ y ∈ dropDupGenotypeVaidAux seen l, y.genotype = x.genotype ∧ y.vaid = x.vaid := by
  induction l generalizing seen with
  | nil => simp at hx
  | cons z zs ih =>
    rcases List.mem_cons.mp hx with rfl | hx2
    · by_cases hz : (x.genotype, x.vaid) ∈ seen
      · exact Or.inl hz
      · refine Or.inr ⟨x, ?_, rfl, rfl⟩
        rw [dropDupGenotypeVaidAux_cons, if_neg hz]
        exact List.mem_cons_self x _
    · by_cases hz : (z.genotype, z.vaid) ∈ seen
      · rw [dropDupGenotypeVaidAux_cons, if_pos hz]
        exact ih seen hx2
      · rw [dropDupGenotypeVaidAux_cons, if_neg hz]
        rcases ih ((z.genotype, z.vaid) :: seen) hx2 with hin | ⟨y, hy, h1, h2⟩
        · rcases List.mem_cons.mp hin with heq | hin2
          · have hg : z.genotype = x.genotype := (Prod.mk.injEq .. ▸ heq.symm).1
            have hvv : z.vaid = x.vaid := (Prod.mk.injEq .. ▸ heq.symm).2
            exact Or.inr ⟨z, List.mem_cons_self z _, hg, hvv⟩
          · exact Or.inl hin2
        · exact Or.inr ⟨y, List.mem_cons_of_mem z hy, h1, h2⟩

theorem dropDupGenotypeVaid_key_surj (l : List MergedRow) (x : MergedRow) (hx : x ∈ l) :
    ∃ y ∈ dropDupGenotypeVaid l, y.genotype = x.genotype ∧ y.vaid = x.vaid :=
  (dropDupGenotypeVaidAux_key_surj l [] x hx).resolve_left (by simp)

/-- C2: every distinct genotype text of the clinical annotation appears in
the matcher's output at least once; a genotype none of whose output rows
carries a Variant Annotation ID appears as a placeholder with the genotype
fields populated and every Variant Annotation field null; and the output row
count is never less than the distinct-genotype count. -/
theorem claim_C2_matching_completeness (anns : List AnnRow) (clins : List ClinAlleleRow)
    (out : List MergedRow)
    (hout : associate_annotations_with_alleles anns clins = .ok out) :
    (∀ g ∈ clins.map (fun cl => cl.genotype), ∃ m ∈ out, m.genotype = some g)
    ∧ (∀ g ∈ clins.map (fun cl => cl.genotype),
        (∀ m ∈ out, m.genotype = some g → m.vaid = none) →
        ∃ m ∈ out, m.genotype = some g ∧ m.vaid = none ∧ m.alleles = none
          ∧ m.split1 = none ∧ m.split2 = none)
    ∧ (pdDropDup (clins.map (fun cl => cl.genotype))).length ≤ out.length := by
  unfold associate_annotations_with_alleles at hout
  by_cases he : (assocAllResults anns clins).isEmpty = true
  · rw [if_pos he] at hout
    exact absurd hout (by simp)
  rw [if_neg he] at hout
  have hres : dropDupGenotypeVaid (assocAllResults anns clins).flatten = out := by
    injection hout
  subst hres
  have hmain : ∀ g ∈ clins.map (fun cl => cl.genotype),
      ∃ m ∈ dropDupGenotypeVaid (assocAllResults anns clins).flatten,
        m.genotype = some g := by
    intro g hg
    obtain ⟨cl, hcl, rfl⟩ := List.mem_map.mp hg
    obtain ⟨t, htmem⟩ := List.exists_mem_of_ne_nil _ (simple_parse_genotype_ne_nil cl.genotype)
    have hc : (⟨cl.caid, cl.genotype, t⟩ : SplitClinRow) ∈ splitClinRows clins :=
      List.mem_flatMap.mpr ⟨cl, hcl, List.mem_map_of_mem _ htmem⟩
    obtain ⟨m, hm, hg2, _⟩ := assocIter_exists anns clins ⟨cl.caid, cl.genotype, t⟩ hc
    obtain ⟨df, hdf, hmdf⟩ := List.mem_flatten.mp hm
    have hmf : m ∈ (assocAllResults anns clins).flatten :=
      List.mem_flatten.mpr ⟨df, List.mem_flatMap.mpr ⟨_, hc, hdf⟩, hmdf⟩
    obtain ⟨y, hy, hyg, _⟩ := dropDupGenotypeVaid_key_surj _ m hmf
    exact ⟨y, hy, by rw [hyg]; exact hg2⟩
  refine ⟨hmain, ?_, ?_⟩
  · intro g hg hnull
    obtain ⟨m, hm, hmg⟩ := hmain g hg
    have hv : m.vaid = none := hnull m hm hmg
    have hmf : m ∈ (assocAllResults anns clins).flatten :=
      dropDupGenotypeVaidAux_subset _ [] hm
    obtain ⟨df, hdfmem, hmdf⟩ := List.mem_flatten.mp hmf
    obtain ⟨c, hc, hdfc⟩ := List.mem_flatMap.mp hdfmem
    have hmerged := assocIter_mem_merged anns clins c df hdfc m hmdf
    have hshape : ∃ c2 ∈ splitClinRows clins, m = mergedLeft c2 := by
      rcases hmerged with h1 | h2
      · exact outerMerge_vaid_none_shape _ _ _ m h1 hv
      · exact outerMerge_vaid_none_shape _ _ _ m h2 hv
    obtain ⟨c2, _, rfl⟩ := hshape
    exact ⟨mergedLeft c2, hm, hmg, rfl, rfl, rfl, rfl⟩
  · have hsub : (pdDropDup (clins.map (fun cl => cl.genotype))).map some
        ⊆ (dropDupGenotypeVaid (assocAllResults anns clins).flatten).map
            (fun m => m.genotype) := by
      intro o ho
      obtain ⟨g, hgG, rfl⟩ := List.mem_map.mp ho
      obtain ⟨m, hm, hmg⟩ := hmain g ((mem_pdDropDup g _).mp hgG)
      exact List.mem_map.mpr ⟨m, hm, hmg⟩
    have hnd : ((pdDropDup (clins.map (fun cl => cl.genotype))).map some).Nodup :=
      (nodup_pdDropDup _).map (Option.some_injective _)
    have hle := (List.subperm_of_subset hnd hsub).length_le
    rw [List.length_map, List.length_map] at hle
    exact hle

/-- C2 witness: one annotation (`va1`, alleles `A`) and one genotype record
`A/G`: the matched row and a placeholder both appear, the distinct-genotype
count 1 is at most the output length 2, and the concrete placeholder row has
all annotation fields null. -/
theorem claim_C2_matching_completeness_witness :
    (pdDropDup (([⟨"ca1", "A/G"⟩] : List ClinAlleleRow).map (fun cl => cl.genotype))).length
      ≤ ([⟨some "ca1", some "A/G", some "A", some "va1", some "A", some "A", some "A"⟩,
          ⟨some "ca1", some "A/G", some "G", none, none, none, none⟩] : List MergedRow).length
    ∧ (⟨some "ca1", some "A/G", some "G", none, none, none, none⟩ : MergedRow)
        ∈ ([⟨some "ca1", some "A/G", some "A", some "va1", some "A", some "A", some "A"⟩,
            ⟨some "ca1", some "A/G", some "G", none, none, none, none⟩] : List MergedRow) :=
  have h := claim_C2_matching_completeness [⟨"va1", "A"⟩] [⟨"ca1", "A/G"⟩]
    [⟨some "ca1", some "A/G", some "A", some "va1", some "A", some "A", some "A"⟩,
     ⟨some "ca1", some "A/G", some "G", none, none, none, none⟩] rfl
  ⟨h.2.2, by decide⟩

example : simple_parse_genotype "AG" = ["A", "G"] := by decide

example : simple_parse_genotype "A/del" = ["A", "del"] := by decide

example : simple_parse_genotype "*1/*2" = ["*1", "*2"] := by decide

example : simple_parse_genotype "A/B/C" = ["A", "B"] := by decide

example : simple_parse_genotype "xyz" = ["xyz"] := by decide

example : simple_parse_genotype "*1" = ["*1"] := by decide

end PGKB
